import Mathlib

/-!
Verification of the Cost Manager storage layer.

This file gives a shallow embedding of the two IndexedDB-backed stores of the
repository — the class-based `CostManagerDB` of `src/lib/idb.jsx` and the
vanilla `idb` interface of `src/lib/idb.js` — and proves the spec's claims
about them.

Modelling conventions:
* A JavaScript `Date` object is represented by the getters the code actually
  calls (`getFullYear`, `getMonth`, `getDate`, `toISOString`, `getTime`).
  Environment-dependent parsing of date strings happens outside the model:
  a "parseable date" input enters the model as the `JSDate` that
  `new Date(...)` produced.
* JavaScript numbers used as monetary amounts are modelled as `Int`.
* The `costs` object store is a list of records in primary-key (insertion)
  order together with the IndexedDB auto-increment key generator.  Index
  lookups (`index.getAll(key)`) filter that list, which matches IndexedDB's
  semantics of returning matching records in ascending primary-key order.
* Each IndexedDB request either fires `onsuccess` or `onerror`; this
  environment choice is the explicit `txOk : Bool` argument.  A failed
  request commits nothing, so the store component of the result is unchanged.
* `this.db === null` (init not yet completed) is the `connected : Bool`
  argument of the `CostManagerDB` operations.
* A JavaScript object is an association list from property names to values;
  property assignment overwrites the first (unique) occurrence of the key or
  appends, and property lookup returns the first occurrence.
-/

/-- Observable getters of a JavaScript `Date` object: `getFullYear()`,
`getMonth()` (0-based), `getDate()`, `toISOString()`, `getTime()`. -/
structure JSDate where
  fullYear : Int
  monthIndex : Nat
  day : Nat
  iso : String
  epochMs : Int
deriving DecidableEq, Repr

/-- JavaScript `String(s).padStart(2, '0')`: prepend `'0'`s until the length is 2. -/
def padStart2 (s : String) : String :=
  if s.length < 2 then String.mk (List.replicate (2 - s.length) '0') ++ s else s

/-- JavaScript object lookup `acc[k]` on an association list: first (unique)
occurrence of the key. -/
def objGet {β : Type} : List (String × β) → String → Option β
  | [], _ => none
  | p :: t, k => if p.1 = k then some p.2 else objGet t k

/-- JavaScript property assignment `acc[k] = v`: overwrite the existing
occurrence of the key, or append the new property. -/
def objSet {β : Type} : List (String × β) → String → β → List (String × β)
  | [], k, v => [(k, v)]
  | p :: t, k, v => if p.1 = k then (k, v) :: t else p :: objSet t k v

namespace CostManagerDB

/-- From `idb.jsx` line 75: the month key stored by the write path,
`` `${date.getFullYear()}-${String(date.getMonth() + 1).padStart(2, '0')}` ``. -/
def writeMonthYear (d : JSDate) : String :=
  toString d.fullYear ++ "-" ++ padStart2 (toString (d.monthIndex + 1))

/-- From `idb.jsx` line 104: the lookup key built by the read path,
`` `${year}-${String(month).padStart(2, '0')}` ``. -/
def queryMonthKey (year : Int) (month : Nat) : String :=
  toString year ++ "-" ++ padStart2 (toString month)

/-- The argument of `CostManagerDB.addCost`: `amount`, `category`,
`description` and the `JSDate` that `new Date(cost.date)` parsed to.
There is no `id` field: the caller cannot supply a primary key. -/
structure CostInput where
  amount : Int
  category : String
  description : String
  date : JSDate
deriving DecidableEq, Repr

/-- A record persisted in the `costs` object store by `CostManagerDB.addCost`:
the caller's fields plus the auto-assigned `id`, the derived `monthYear` and
the creation `timestamp`. -/
structure StoredCost where
  id : Nat
  amount : Int
  category : String
  description : String
  date : JSDate
  monthYear : String
  timestamp : Int
deriving DecidableEq, Repr

/-- The durable `costs` object store: records in primary-key order plus the
IndexedDB auto-increment key generator (next key to hand out). -/
structure Store where
  records : List StoredCost
  keyGen : Nat
deriving DecidableEq, Repr

/-- A freshly created `costs` store: no records, key generator at 1
(IndexedDB auto-increment keys start at 1). -/
def Store.empty : Store := { records := [], keyGen := 1 }

/-- Embeds `CostManagerDB.addCost` (idb.jsx lines 64–86).  Throws
`'Database not initialized'` when `this.db` is null; otherwise derives
`monthYear` from the cost's date, stamps the current instant, and adds
`{...cost, monthYear, timestamp}` to the store, resolving with the new key.
`now` is the `Date` constructed for the timestamp; `txOk` is whether the
IndexedDB request fires `onsuccess`.  Returns the result together with the
durable store state after the call. -/
def addCost (connected : Bool) (s : Store) (txOk : Bool) (cost : CostInput)
    (now : JSDate) : Except String Nat × Store :=
  if !connected then (.error "Database not initialized", s)
  else if txOk then
    (.ok s.keyGen,
      { records := s.records ++
          [{ id := s.keyGen, amount := cost.amount, category := cost.category,
             description := cost.description, date := cost.date,
             monthYear := writeMonthYear cost.date, timestamp := now.epochMs }],
        keyGen := s.keyGen + 1 })
  else (.error "Failed to add cost", s)

/-- Embeds `CostManagerDB.getCostsByMonth` (idb.jsx lines 96–111).  Throws
`'Database not initialized'` when `this.db` is null; otherwise performs
`index('monthYear').getAll(monthYear)`, returning every record whose
`monthYear` equals the lookup key, in primary-key order. -/
def getCostsByMonth (connected : Bool) (s : Store) (txOk : Bool) (year : Int)
    (month : Nat) : Except String (List StoredCost) :=
  if !connected then .error "Database not initialized"
  else if txOk then
    .ok (s.records.filter (fun r => decide (r.monthYear = queryMonthKey year month)))
  else .error "Failed to get costs"

/-- The reduce step shared by both aggregation implementations
(`idb.jsx` line 123, `idb.js` line 129):
`acc[cost.category] = (acc[cost.category] || 0) + cost.amount`. -/
def objAccum (acc : List (String × Int)) (cat : String) (amt : Int) :
    List (String × Int) :=
  objSet acc cat ((objGet acc cat).getD 0 + amt)

/-- Embeds `CostManagerDB.getCostsByCategory` (idb.jsx lines 120–126): awaits
`getCostsByMonth` (propagating its rejection unchanged) and folds the records
into a category → total map with the reduce step. -/
def getCostsByCategory (connected : Bool) (s : Store) (txOk : Bool) (year : Int)
    (month : Nat) : Except String (List (String × Int)) :=
  (getCostsByMonth connected s txOk year month).map
    (fun costs => costs.foldl (fun acc c => objAccum acc c.category c.amount) [])

/-- Embeds `CostManagerDB.deleteCost` (idb.jsx lines 133–146).  Throws
`'Database not initialized'` when `this.db` is null; otherwise
`store.delete(id)`, which removes the record with that primary key if present
and is a no-op otherwise, resolving with no value either way. -/
def deleteCost (connected : Bool) (s : Store) (txOk : Bool) (id : Nat) :
    Except String Unit × Store :=
  if !connected then (.error "Database not initialized", s)
  else if txOk then
    (.ok (), { s with records := s.records.filter (fun r => !decide (r.id = id)) })
  else (.error "Failed to delete cost", s)

end CostManagerDB

namespace idb

/-- From `idb.js` line 76: the month key computed at insert time from the *current*
date, `` `${currentDate.getFullYear()}-${String(currentDate.getMonth() + 1).padStart(2, '0')}` ``. -/
def entryMonthYear (d : JSDate) : String :=
  toString d.fullYear ++ "-" ++ padStart2 (toString (d.monthIndex + 1))

/-- From `idb.js` line 107: the lookup key built by `idb.getCostsByMonth`,
`` `${year}-${String(month).padStart(2, '0')}` ``. -/
def queryMonthKey (year : Int) (month : Nat) : String :=
  toString year ++ "-" ++ padStart2 (toString month)

/-- The argument of `idb.addCost`: `sum`, `category`, `description`.  The
caller may also attach a `date` property; `addCost` never reads it, which the
optional extra field records. -/
structure JsCostInput where
  sum : Int
  category : String
  description : String
  date? : Option String := none
deriving DecidableEq, Repr

/-- The `costEntry` persisted by `idb.addCost` (idb.js lines 79–87):
`sum`, a duplicated `amount`, `category`, `description`, the creation
instant as ISO string `date`, the derived `monthYear` and `timestamp`,
plus the auto-assigned `id`. -/
structure JsCostEntry where
  id : Nat
  sum : Int
  amount : Int
  category : String
  description : String
  date : String
  monthYear : String
  timestamp : Int
deriving DecidableEq, Repr

/-- The durable `costs` object store of the vanilla interface. -/
structure JsStore where
  records : List JsCostEntry
  keyGen : Nat
deriving DecidableEq, Repr

/-- Embeds `idb.addCost` (idb.js lines 69–93).  The interface only exists after a
successful open, so there is no not-initialized branch.  Builds `costEntry`
from `cost.sum`/`cost.category`/`cost.description` and the *current* date
(`currentDate = new Date()`); the caller's `date` property is never read. -/
def addCost (s : JsStore) (txOk : Bool) (cost : JsCostInput) (currentDate : JSDate) :
    Except String Nat × JsStore :=
  if txOk then
    (.ok s.keyGen,
      { records := s.records ++
          [{ id := s.keyGen, sum := cost.sum, amount := cost.sum,
             category := cost.category, description := cost.description,
             date := currentDate.iso, monthYear := entryMonthYear currentDate,
             timestamp := currentDate.epochMs }],
        keyGen := s.keyGen + 1 })
  else (.error "Failed to add cost", s)

/-- Embeds `idb.getCostsByMonth` (idb.js lines 103–114): index lookup on
`monthYear`, as in the class-based store. -/
def getCostsByMonth (s : JsStore) (txOk : Bool) (year : Int) (month : Nat) :
    Except String (List JsCostEntry) :=
  if txOk then
    .ok (s.records.filter (fun r => decide (r.monthYear = queryMonthKey year month)))
  else .error "Failed to get costs"

/-- Embeds `idb.getCostsByCategory` (idb.js lines 124–135): awaits
`getCostsByMonth` inside `try`, folds with the shared reduce step over
`cost.amount`, and in `catch` replaces *any* failure with
`new Error('Failed to get costs by category')`. -/
def getCostsByCategory (s : JsStore) (txOk : Bool) (year : Int) (month : Nat) :
    Except String (List (String × Int)) :=
  match getCostsByMonth s txOk year month with
  | .ok costs =>
      .ok (costs.foldl (fun acc c => CostManagerDB.objAccum acc c.category c.amount) [])
  | .error _ => .error "Failed to get costs by category"

end idb

/-- Schema of a single IndexedDB index as created by
`store.createIndex(name, keyPath)`; `createIndex` without options creates a
non-unique index. -/
structure IndexSchema where
  name : String
  keyPath : String
  unique : Bool
deriving DecidableEq, Repr

/-- Schema of an IndexedDB object store. -/
structure ObjectStoreSchema where
  name : String
  keyPath : String
  autoIncrement : Bool
  indexes : List IndexSchema
deriving DecidableEq, Repr

/-- The persisted schema of one named IndexedDB database. -/
structure PersistedDB where
  stores : List ObjectStoreSchema
deriving DecidableEq, Repr

namespace CostManagerDB

/-- The `onupgradeneeded` handler (idb.jsx lines 34–49, identical in idb.js
lines 36–51): if no `costs` store exists, create it with key path `id`,
`autoIncrement: true`, and non-unique indexes `date`, `category`,
`monthYear`. -/
def upgradeDB (db : PersistedDB) : PersistedDB :=
  if db.stores.any (fun os => decide (os.name = "costs")) then db
  else
    { stores := db.stores ++
        [{ name := "costs", keyPath := "id", autoIncrement := true,
           indexes := [{ name := "date", keyPath := "date", unique := false },
                       { name := "category", keyPath := "category", unique := false },
                       { name := "monthYear", keyPath := "monthYear", unique := false }] }] }

/-- Embeds `CostManagerDB.init` (idb.jsx lines 21–51) at the schema level.
`existing` is the durable database under the requested name, if any.  On a
first-ever open the engine creates an empty database and fires
`onupgradeneeded`; on a subsequent open at the same version no upgrade fires
and the connection simply attaches to the stored schema. -/
def initDB (existing : Option PersistedDB) : PersistedDB :=
  match existing with
  | none => upgradeDB { stores := [] }
  | some db => db

/-- The schema guarantee the spec attributes to a successful `init`: a
`costs` store keyed on auto-incremented `id` with exactly the three
non-unique single-field indexes `date`, `category`, `monthYear`. -/
def hasCostsSchema (db : PersistedDB) : Prop :=
  ∃ os ∈ db.stores,
    os.name = "costs" ∧ os.keyPath = "id" ∧ os.autoIncrement = true ∧
    os.indexes = [{ name := "date", keyPath := "date", unique := false },
                  { name := "category", keyPath := "category", unique := false },
                  { name := "monthYear", keyPath := "monthYear", unique := false }]

instance (db : PersistedDB) : Decidable (hasCostsSchema db) := by
  unfold hasCostsSchema; infer_instance

/-- One call against an initialized `CostManagerDB`: an `addCost` (with its
`Date` and request outcome) or a `deleteCost` (with its request outcome). -/
inductive DBOp where
  | addOp (cost : CostInput) (now : JSDate) (txOk : Bool)
  | delOp (id : Nat) (txOk : Bool)
deriving Repr

/-- Runs a sequence of calls against an initialized store, collecting the ids
resolved by the successful `addCost` calls in call order. -/
def runOps : Store → List DBOp → Store × List Nat
  | s, [] => (s, [])
  | s, DBOp.addOp c now ok :: rest =>
      match addCost true s ok c now with
      | (.ok i, s') =>
          let r := runOps s' rest
          (r.1, i :: r.2)
      | (.error _, s') => runOps s' rest
  | s, DBOp.delOp i ok :: rest => runOps (deleteCost true s ok i).2 rest

/-- Record/input agreement "modulo the store-assigned `id`, `monthYear` and
`timestamp`": the four caller-supplied fields coincide. -/
def matchesInput (r : StoredCost) (c : CostInput) : Bool :=
  decide (r.amount = c.amount) && decide (r.category = c.category) &&
  decide (r.description = c.description) && decide (r.date = c.date)

/-- The spec's words for the aggregation ("the sum, grouped by `category`,
over `listByMonth(y,m)`"): total of the `amount` fields of the records of the
given category.  Stated from the spec, for comparison with the code's fold. -/
def specCategorySum (recs : List StoredCost) (cat : String) : Int :=
  ((recs.filter (fun r => decide (r.category = cat))).map (fun r => r.amount)).sum

end CostManagerDB

/-- A JavaScript value as far as the stored record's properties need:
numbers and strings. -/
inductive JSValue where
  | num (n : Int)
  | str (s : String)
deriving DecidableEq, Repr

/-- A JavaScript object: properties in insertion order, keys unique. -/
abbrev JSObj := List (String × JSValue)

namespace CostManagerDB

/-- The object literal `{...cost, monthYear, timestamp: new Date().getTime()}`
of `idb.jsx` lines 77–81: start from the caller's own enumerable properties,
then define `monthYear`, then `timestamp` — later definitions overwrite
caller-supplied properties of the same name. -/
def addCostStoredObj (cost : JSObj) (parsedDate : JSDate) (nowMs : Int) : JSObj :=
  objSet (objSet cost "monthYear" (JSValue.str (writeMonthYear parsedDate)))
    "timestamp" (JSValue.num nowMs)

/-- A sample parsed date: `new Date("2024-03-05")` read off in UTC. -/
def sampleDate : JSDate :=
  { fullYear := 2024, monthIndex := 2, day := 5,
    iso := "2024-03-05T00:00:00.000Z", epochMs := 1709596800000 }

/-- A sample `addCost` argument. -/
def sampleInput : CostInput :=
  { amount := 50, category := "Food", description := "Lunch", date := sampleDate }

/-- A sample stored record for March 2024. -/
def sampleRec1 : StoredCost :=
  { id := 1, amount := 50, category := "Food", description := "Lunch",
    date := sampleDate, monthYear := "2024-03", timestamp := 1709596800000 }

/-- A second sample stored record for March 2024. -/
def sampleRec2 : StoredCost :=
  { id := 2, amount := 20, category := "Food", description := "Snack",
    date := sampleDate, monthYear := "2024-03", timestamp := 1709596800000 }

/-- A sample store holding the two March 2024 records. -/
def sampleStore : Store := { records := [sampleRec1, sampleRec2], keyGen := 3 }

end CostManagerDB

/-- Property lookup after property assignment: the assigned key now maps to
the assigned value and every other key is unaffected. -/
theorem objGet_objSet {β : Type} (acc : List (String × β)) (k k' : String) (v : β) :
    objGet (objSet acc k v) k' = if k' = k then some v else objGet acc k' := by
  induction acc with
  | nil =>
    simp only [objSet, objGet]
    by_cases h : k' = k
    · subst h; simp
    · rw [if_neg (fun hh => h hh.symm), if_neg h]
  | cons p t ih =>
    simp only [objSet]
    by_cases hpk : p.1 = k
    · rw [if_pos hpk]
      simp only [objGet]
      by_cases hk : k' = k
      · subst hk; simp [hpk]
      · rw [if_neg (fun hh : k = k' => hk hh.symm), if_neg hk,
          if_neg (fun hh : p.1 = k' => hk (hh ▸ hpk))]
    · rw [if_neg hpk]
      simp only [objGet, ih]
      by_cases hp : p.1 = k'
      · rw [if_pos hp, if_pos hp,
          if_neg (fun hh : k' = k => hpk (hp.trans hh))]
      · rw [if_neg hp, if_neg hp]

namespace CostManagerDB

/-- Claim C3: the persisted `monthYear` is derived from the record's supplied
date by the zero-padded `YYYY-MM` rule, deterministically — it depends only on
the parsed date's year and month components (not on the store's contents, the
add order, or any other observable of the environment's `Date`), the vanilla
store's formula is the very same derivation, and a date in March 2024 always
yields `"2024-03"`. -/
theorem monthYear_derivation (s : Store) (c : CostInput) (now : JSDate)
    (d d' : JSDate) (hy : d.fullYear = d'.fullYear) (hm : d.monthIndex = d'.monthIndex) :
    (∃ e, (addCost true s true c now).2.records = s.records ++ [e] ∧
        e.monthYear = writeMonthYear c.date) ∧
    writeMonthYear d = writeMonthYear d' ∧
    idb.entryMonthYear d = writeMonthYear d ∧
    (d.fullYear = 2024 → d.monthIndex = 2 → writeMonthYear d = "2024-03") := by
  refine ⟨⟨_, rfl, rfl⟩, ?_, rfl, ?_⟩
  · unfold writeMonthYear
    rw [hy, hm]
  · intro h1 h2
    unfold writeMonthYear
    rw [h1, h2]
    decide

/-- Witness for C3 at the sample date. -/
theorem monthYear_derivation_witness :
    (∃ e, (addCost true sampleStore true sampleInput sampleDate).2.records =
        sampleStore.records ++ [e] ∧ e.monthYear = writeMonthYear sampleInput.date) ∧
    writeMonthYear sampleDate = writeMonthYear sampleDate ∧
    idb.entryMonthYear sampleDate = writeMonthYear sampleDate ∧
    (sampleDate.fullYear = 2024 → sampleDate.monthIndex = 2 →
      writeMonthYear sampleDate = "2024-03") :=
  monthYear_derivation sampleStore sampleInput sampleDate sampleDate sampleDate rfl rfl

/-- Claim C5: `addCost`, `getCostsByMonth`, `getCostsByCategory` and
`deleteCost` all fail with the `'Database not initialized'` error when called
before `init` has completed (`this.db` still null), and the durable store
state is unchanged. -/
theorem ops_before_init_fail (s : Store) (ok : Bool) (c : CostInput) (now : JSDate)
    (year : Int) (month : Nat) (id : Nat) :
    addCost false s ok c now = (.error "Database not initialized", s) ∧
    getCostsByMonth false s ok year month = .error "Database not initialized" ∧
    getCostsByCategory false s ok year month = .error "Database not initialized" ∧
    deleteCost false s ok id = (.error "Database not initialized", s) :=
  ⟨rfl, rfl, rfl, rfl⟩

/-- Claim C9: in the stored object `{...cost, monthYear, timestamp}` the
derived properties are assigned after the caller's are spread, so whatever
`monthYear` or `timestamp` the caller's object carried, the persisted values
are the derivation from the parsed `cost.date` and the creation instant. -/
theorem addCost_derived_fields_override (cost : JSObj) (parsedDate : JSDate)
    (nowMs : Int) :
    objGet (addCostStoredObj cost parsedDate nowMs) "monthYear"
      = some (JSValue.str (writeMonthYear parsedDate)) ∧
    objGet (addCostStoredObj cost parsedDate nowMs) "timestamp"
      = some (JSValue.num nowMs) := by
  unfold addCostStoredObj
  rw [objGet_objSet, objGet_objSet, objGet_objSet]
  simp

/-- Claim C6: on an initialized store, `deleteCost` resolves with no value
whether or not a record with the given id exists, it removes exactly the
records carrying that primary key, and deleting a non-existent id leaves the
store unchanged. -/
theorem deleteCost_idempotent (s : Store) (id : Nat) :
    (deleteCost true s true id).1 = .ok () ∧
    (deleteCost true s true id).2.records
      = s.records.filter (fun r => !decide (r.id = id)) ∧
    ((∀ r ∈ s.records, r.id ≠ id) → (deleteCost true s true id).2 = s) := by
  refine ⟨rfl, rfl, fun h => ?_⟩
  have hf : s.records.filter (fun r => !decide (r.id = id)) = s.records :=
    List.filter_eq_self.2 (fun a ha => by simpa using h a ha)
  show ({ s with records := s.records.filter (fun r => !decide (r.id = id)) } : Store) = s
  rw [hf]

/-- Witness for C6: deleting the absent id 99 from the sample store succeeds
and changes nothing. -/
theorem deleteCost_idempotent_witness :
    (deleteCost true sampleStore true 99).1 = .ok () ∧
    (deleteCost true sampleStore true 99).2 = sampleStore :=
  ⟨(deleteCost_idempotent sampleStore 99).1,
   (deleteCost_idempotent sampleStore 99).2.2 (by decide)⟩

/-- Claim C8: a first-ever open creates the `costs` collection with
auto-incremented primary key `id` and exactly the three non-unique
single-field indexes `date`, `category`, `monthYear`; a subsequent open skips
creation and connects to the stored schema unchanged; in both cases a
successful `init` guarantees the collection and its indexes exist. -/
theorem initDB_schema :
    hasCostsSchema (initDB none) ∧
    (∀ db, initDB (some db) = db) ∧
    (∀ db, hasCostsSchema db → hasCostsSchema (initDB (some db))) := by
  refine ⟨?_, fun db => rfl, fun db h => h⟩
  decide

/-- Witness for C8: opening the database created by a first open preserves
the schema guarantee. -/
theorem initDB_schema_witness :
    hasCostsSchema (initDB (some (initDB none))) :=
  initDB_schema.2.2 (initDB none) (by decide)

end CostManagerDB

namespace idb

/-- Claim C10: every record the vanilla store's `addCost` persists carries
both a `sum` and an `amount` field, both equal to the caller's `cost.sum`;
its `date` is the creation instant's ISO string and its `monthYear` is
derived from the creation instant — the caller's `date` property is ignored
entirely (the same call with any other `date` property builds the same
record). -/
theorem addCost_sum_amount_date (s : JsStore) (cost : JsCostInput)
    (currentDate : JSDate) :
    (∃ e : JsCostEntry,
      addCost s true cost currentDate =
        (.ok s.keyGen, { records := s.records ++ [e], keyGen := s.keyGen + 1 }) ∧
      e.sum = cost.sum ∧ e.amount = cost.sum ∧ e.date = currentDate.iso ∧
      e.monthYear = entryMonthYear currentDate ∧ e.timestamp = currentDate.epochMs) ∧
    (∀ d, addCost s true { cost with date? := d } currentDate
        = addCost s true cost currentDate) :=
  ⟨⟨_, rfl, rfl, rfl, rfl, rfl, rfl⟩, fun _ => rfl⟩

end idb

/-- Filtering an appended singleton through two predicates: when no element
of the prefix passes the second predicate and the appended element passes
both, exactly the appended element survives. -/
theorem filter_filter_append_single {α : Type} (p q : α → Bool) (l : List α)
    (a : α) (hl : ∀ x ∈ l, q x = false) (hpa : p a = true) (hqa : q a = true) :
    ((l ++ [a]).filter p).filter q = [a] := by
  have h1 : (l ++ [a]).filter p = l.filter p ++ [a] := by
    rw [List.filter_append]
    simp [List.filter_cons, hpa]
  rw [h1, List.filter_append]
  have h2 : (l.filter p).filter q = [] := by
    rw [List.filter_eq_nil_iff]
    intro x hx
    simp [hl x (List.mem_of_mem_filter hx)]
  rw [h2]
  simp [List.filter_cons, hqa]

namespace CostManagerDB

/-- Claim C1: for every valid cost input, `addCost` followed by
`getCostsByMonth` at the year and month the input's parsed date falls in
(`getFullYear()` / `getMonth() + 1`) returns a sequence whose records
matching the input — modulo the store-assigned `id`, `monthYear` and
`timestamp` — are exactly the one just written, provided no previously
stored record already carried the input's fields; and the read path builds
its lookup key with the very same zero-padding rule as the write path. -/
theorem addCost_getCostsByMonth_roundtrip (s : Store) (c : CostInput)
    (now : JSDate) (hfresh : ∀ r ∈ s.records, matchesInput r c = false) :
    writeMonthYear c.date = queryMonthKey c.date.fullYear (c.date.monthIndex + 1) ∧
    ∀ recs, getCostsByMonth true (addCost true s true c now).2 true
        c.date.fullYear (c.date.monthIndex + 1) = .ok recs →
      recs.filter (fun r => matchesInput r c) =
        [{ id := s.keyGen, amount := c.amount, category := c.category,
           description := c.description, date := c.date,
           monthYear := writeMonthYear c.date, timestamp := now.epochMs }] := by
  constructor
  · rfl
  intro recs h
  injection h with h
  rw [← h]
  have hrec : (addCost true s true c now).2.records
      = s.records ++
        [{ id := s.keyGen, amount := c.amount, category := c.category,
           description := c.description, date := c.date,
           monthYear := writeMonthYear c.date, timestamp := now.epochMs }] := rfl
  rw [hrec]
  exact filter_filter_append_single _ _ s.records _ hfresh (decide_eq_true rfl)
    (by simp [matchesInput])

/-- Witness for C1: the round trip at the sample input over the empty store. -/
theorem addCost_getCostsByMonth_roundtrip_witness :
    writeMonthYear sampleInput.date
      = queryMonthKey sampleInput.date.fullYear (sampleInput.date.monthIndex + 1) ∧
    ∀ recs, getCostsByMonth true (addCost true Store.empty true sampleInput sampleDate).2
        true sampleInput.date.fullYear (sampleInput.date.monthIndex + 1) = .ok recs →
      recs.filter (fun r => matchesInput r sampleInput) =
        [{ id := Store.empty.keyGen, amount := sampleInput.amount,
           category := sampleInput.category, description := sampleInput.description,
           date := sampleInput.date, monthYear := writeMonthYear sampleInput.date,
           timestamp := sampleDate.epochMs }] :=
  addCost_getCostsByMonth_roundtrip Store.empty sampleInput sampleDate
    (by simp [Store.empty])

end CostManagerDB

namespace CostManagerDB

/-- Lookup after one reduce step: the bumped category now holds its previous
total (default 0) plus the record's amount; every other category is
unaffected. -/
theorem objGet_objAccum (acc : List (String × Int)) (cat k : String) (amt : Int) :
    objGet (objAccum acc cat amt) k
      = if k = cat then some ((objGet acc cat).getD 0 + amt) else objGet acc k := by
  unfold objAccum
  rw [objGet_objSet]

/-- Unfolding of the spec-side group sum on a cons cell. -/
theorem specCategorySum_cons (r : StoredCost) (recs : List StoredCost) (k : String) :
    specCategorySum (r :: recs) k
      = (if r.category = k then r.amount else 0) + specCategorySum recs k := by
  by_cases h : r.category = k <;>
    simp [specCategorySum, List.filter_cons, h]

/-- A category matching no record sums to zero. -/
theorem specCategorySum_eq_zero (recs : List StoredCost) (k : String)
    (h : recs.any (fun r => decide (r.category = k)) = false) :
    specCategorySum recs k = 0 := by
  unfold specCategorySum
  have : recs.filter (fun r => decide (r.category = k)) = [] := by
    rw [List.filter_eq_nil_iff]
    intro x hx
    rw [List.any_eq_false] at h
    exact h x hx
  rw [this]
  rfl

/-- The fold of the reduce step computes, per category, the running total:
present categories map to their accumulated sum, absent ones keep their
initial entry (or none). -/
theorem objGet_foldl_objAccum (recs : List StoredCost) (acc : List (String × Int))
    (k : String) :
    objGet (recs.foldl (fun a r => objAccum a r.category r.amount) acc) k
      = if recs.any (fun r => decide (r.category = k)) = true
        then some ((objGet acc k).getD 0 + specCategorySum recs k)
        else objGet acc k := by
  induction recs generalizing acc with
  | nil => simp [specCategorySum]
  | cons r t ih =>
    simp only [List.foldl_cons, List.any_cons]
    rw [ih, specCategorySum_cons]
    simp only [objGet_objAccum]
    by_cases hc : r.category = k
    · by_cases hany : (t.any fun r => decide (r.category = k)) = true
      · simp [hc, hany, add_assoc]
      · have hany' : (t.any fun r => decide (r.category = k)) = false :=
          Bool.eq_false_iff.mpr hany
        have hz := specCategorySum_eq_zero t k hany'
        simp [hc, hany', hz]
    · have hck : ¬(k = r.category) := fun h => hc h.symm
      by_cases hany : (t.any fun r => decide (r.category = k)) = true
      · simp [hc, hck, hany]
      · have hany' : (t.any fun r => decide (r.category = k)) = false :=
          Bool.eq_false_iff.mpr hany
        simp [hc, hck, hany']

/-- Claim C2: whenever the month query and the aggregation both succeed, the
aggregation's mapping assigns to every category appearing among the month's
records the sum of their `amount` fields — stated through the independent
spec-side group sum — and assigns nothing to a category with no record in
that month; zero records yield the empty mapping. -/
theorem getCostsByCategory_eq_groupSum (s : Store) (year : Int) (month : Nat)
    (recs : List StoredCost) (totals : List (String × Int))
    (hm : getCostsByMonth true s true year month = .ok recs)
    (hc : getCostsByCategory true s true year month = .ok totals) :
    (∀ cat, objGet totals cat
        = if recs.any (fun r => decide (r.category = cat)) = true
          then some (specCategorySum recs cat) else none) ∧
    (recs = [] → totals = []) := by
  have htot : totals = recs.foldl (fun acc r => objAccum acc r.category r.amount) [] := by
    unfold getCostsByCategory at hc
    rw [hm] at hc
    simp only [Except.map] at hc
    injection hc with hc
    exact hc.symm
  subst htot
  constructor
  · intro cat
    rw [objGet_foldl_objAccum]
    simp [objGet]
  · intro h
    rw [h]
    rfl

/-- Witness for C2 at the sample store: March 2024 holds two `Food` records
of 50 and 20, and the aggregation returns `{"Food": 70}`. -/
theorem getCostsByCategory_eq_groupSum_witness :
    (∀ cat, objGet [("Food", (70 : Int))] cat
        = if [sampleRec1, sampleRec2].any (fun r => decide (r.category = cat)) = true
          then some (specCategorySum [sampleRec1, sampleRec2] cat) else none) ∧
    ([sampleRec1, sampleRec2] = ([] : List StoredCost)
      → [("Food", (70 : Int))] = ([] : List (String × Int))) :=
  getCostsByCategory_eq_groupSum sampleStore 2024 3 [sampleRec1, sampleRec2]
    [("Food", 70)] rfl rfl

end CostManagerDB

/-- Claim C7 counterexample: when the month query's request fails, the
vanilla `idb.getCostsByCategory` does not surface the month query's own
failure (`'Failed to get costs'`) but replaces it with
`'Failed to get costs by category'`. -/
theorem aggregation_error_replaced_counterexample :
    idb.getCostsByMonth { records := [], keyGen := 1 } false 2024 3
      = .error "Failed to get costs" ∧
    idb.getCostsByCategory { records := [], keyGen := 1 } false 2024 3
      ≠ .error "Failed to get costs" ∧
    idb.getCostsByCategory { records := [], keyGen := 1 } false 2024 3
      = .error "Failed to get costs by category" := by
  refine ⟨rfl, ?_, rfl⟩
  intro h
  have h' : "Failed to get costs by category" = "Failed to get costs" := by
    injection h
  exact absurd h' (by decide)

/-- Claim C7 as amended: each aggregation fails exactly when its underlying
month query fails and never converts a failure into an empty success result;
the class-based implementation propagates the identical error, while the
vanilla `idb.js` implementation replaces any underlying failure with the
single aggregate error `'Failed to get costs by category'`. -/
theorem aggregation_failure_propagation (connected txOk : Bool)
    (s : CostManagerDB.Store) (js : idb.JsStore) (year : Int) (month : Nat) :
    (∀ e, CostManagerDB.getCostsByMonth connected s txOk year month = .error e →
        CostManagerDB.getCostsByCategory connected s txOk year month = .error e) ∧
    (∀ recs, CostManagerDB.getCostsByMonth connected s txOk year month = .ok recs →
        ∃ t, CostManagerDB.getCostsByCategory connected s txOk year month = .ok t) ∧
    (∀ e, idb.getCostsByMonth js txOk year month = .error e →
        idb.getCostsByCategory js txOk year month
          = .error "Failed to get costs by category") ∧
    (∀ recs, idb.getCostsByMonth js txOk year month = .ok recs →
        ∃ t, idb.getCostsByCategory js txOk year month = .ok t) := by
  refine ⟨fun e he => ?_, fun recs hr => ?_, fun e he => ?_, fun recs hr => ?_⟩
  · unfold CostManagerDB.getCostsByCategory
    rw [he]
    rfl
  · unfold CostManagerDB.getCostsByCategory
    rw [hr]
    exact ⟨_, rfl⟩
  · unfold idb.getCostsByCategory
    rw [he]
  · unfold idb.getCostsByCategory
    rw [hr]
    exact ⟨_, rfl⟩

namespace CostManagerDB

/-- The key generator never decreases across any sequence of calls. -/
theorem runOps_keyGen_mono (ops : List DBOp) :
    ∀ s : Store, s.keyGen ≤ (runOps s ops).1.keyGen := by
  induction ops with
  | nil => intro s; exact Nat.le_refl _
  | cons op rest ih =>
    intro s
    cases op with
    | addOp c now ok =>
      cases ok with
      | true =>
        have h := ih (addCost true s true c now).2
        have hk : (addCost true s true c now).2.keyGen = s.keyGen + 1 := rfl
        have hred : (runOps s (DBOp.addOp c now true :: rest)).1
            = (runOps (addCost true s true c now).2 rest).1 := rfl
        rw [hred]
        rw [hk] at h
        exact Nat.le_trans (Nat.le_succ _) h
      | false => exact ih s
    | delOp i ok =>
      cases ok with
      | true =>
        have h := ih (deleteCost true s true i).2
        exact h
      | false => exact ih s

/-- Every id resolved along a sequence of calls is at least the starting
key-generator value. -/
theorem runOps_ids_ge (ops : List DBOp) :
    ∀ (s : Store) (i : Nat), i ∈ (runOps s ops).2 → s.keyGen ≤ i := by
  induction ops with
  | nil => intro s i hi; exact absurd hi (List.not_mem_nil i)
  | cons op rest ih =>
    intro s i hi
    cases op with
    | addOp c now ok =>
      cases ok with
      | true =>
        have hred : (runOps s (DBOp.addOp c now true :: rest)).2
            = s.keyGen :: (runOps (addCost true s true c now).2 rest).2 := rfl
        rw [hred] at hi
        have hk : (addCost true s true c now).2.keyGen = s.keyGen + 1 := rfl
        rcases List.mem_cons.mp hi with h | h
        · exact Nat.le_of_eq h.symm
        · have := ih (addCost true s true c now).2 i h
          rw [hk] at this
          exact Nat.le_trans (Nat.le_succ _) this
      | false => exact ih s i hi
    | delOp j ok =>
      cases ok with
      | true =>
        have := ih (deleteCost true s true j).2 i hi
        exact this
      | false => exact ih s i hi

/-- The ids resolved by the successful adds are pairwise strictly increasing
in call order. -/
theorem runOps_ids_pairwise (ops : List DBOp) :
    ∀ s : Store, List.Pairwise (· < ·) (runOps s ops).2 := by
  induction ops with
  | nil => intro s; exact List.Pairwise.nil
  | cons op rest ih =>
    intro s
    cases op with
    | addOp c now ok =>
      cases ok with
      | true =>
        have hred : (runOps s (DBOp.addOp c now true :: rest)).2
            = s.keyGen :: (runOps (addCost true s true c now).2 rest).2 := rfl
        rw [hred]
        refine List.Pairwise.cons (fun j hj => ?_) (ih _)
        have hge := runOps_ids_ge rest (addCost true s true c now).2 j hj
        have hk : (addCost true s true c now).2.keyGen = s.keyGen + 1 := rfl
        rw [hk] at hge
        exact Nat.lt_of_succ_le hge
      | false => exact ih s
    | delOp j ok =>
      cases ok with
      | true => exact ih _
      | false => exact ih s

/-- Claim C4: across any sequence of calls against a freshly initialized
store — successful and failed adds, with deletes (of any ids, existing or
not) interleaved anywhere — the ids resolved by the successful `addCost`
calls are positive and strictly increasing in call order, hence never
repeated.  The caller cannot supply an id: `CostInput` carries none, and the
stored key comes from the store's key generator alone. -/
theorem addCost_ids_strictly_increasing (ops : List DBOp) :
    List.Pairwise (· < ·) (runOps Store.empty ops).2 ∧
    (runOps Store.empty ops).2.all (fun i => decide (0 < i)) = true := by
  constructor
  · exact runOps_ids_pairwise ops Store.empty
  · rw [List.all_eq_true]
    intro i hi
    have h := runOps_ids_ge ops Store.empty i hi
    exact decide_eq_true (Nat.lt_of_lt_of_le Nat.zero_lt_one h)

end CostManagerDB

/-- Witness for the amended C7 at concrete failing queries. -/
theorem aggregation_failure_propagation_witness :
    CostManagerDB.getCostsByCategory true CostManagerDB.sampleStore false 2024 3
      = .error "Failed to get costs" ∧
    idb.getCostsByCategory { records := [], keyGen := 1 } false 2024 3
      = .error "Failed to get costs by category" :=
  ⟨(aggregation_failure_propagation true false CostManagerDB.sampleStore
      { records := [], keyGen := 1 } 2024 3).1 "Failed to get costs" rfl,
   (aggregation_failure_propagation true false CostManagerDB.sampleStore
      { records := [], keyGen := 1 } 2024 3).2.2.1 "Failed to get costs" rfl⟩
